import Mathlib

/-!
Verification of `video_subtitle_pipeline.py`.

The script is a linear media pipeline: download a video, extract its audio,
run speech recognition, and serialize the recognized segments as SRT caption
files in several languages.  This file gives a shallow embedding of the
script's own logic — the timestamp formatter, the SRT block writers, the
skip-if-artifact-exists stage gates and the `main` orchestration — and proves
the specification's claims about them.

External collaborators (yt-dlp, ffmpeg, whisper, argostranslate) are opaque
in the script; they are modelled by a `World` record of behaviours, and the
filesystem by the list of existing paths.  Python floats are modelled by
exact rationals: every arithmetic step of `timestamp` (`//`, `%` and the
`f"{s:06.3f}"` formatting) is exact or correctly rounded on binary doubles,
so the rational model agrees with CPython on every representable input.
-/

namespace VideoSubtitlePipeline

/-! ### Decimal rendering helpers (Python format specs `{:02}` and `%06.3f`) -/

/-- Zero padding of a natural number to width 2, as in `f"{n:02}"` for `n ≥ 0`. -/
def pad2 (n : Nat) : String :=
  if n < 10 then "0" ++ Nat.repr n else Nat.repr n

/-- Zero padding of a natural number to width 3 (the milliseconds digits of
the `%06.3f` field). -/
def pad3 (n : Nat) : String :=
  if n < 10 then "00" ++ Nat.repr n
  else if n < 100 then "0" ++ Nat.repr n
  else Nat.repr n

/-- Python `f"{z:02}"` on an `int`: the minus sign counts towards the width,
so `-1` renders as `"-1"` and non-negative values as two zero-padded digits. -/
def intPad2 (z : Int) : String :=
  if z < 0 then "-" ++ Nat.repr z.natAbs else pad2 z.toNat

/-- Python float `%`: `a % b = a - b * ⌊a / b⌋`, taking the sign of the
divisor.  Exact on floats for the divisors used here. -/
def pymod (a b : ℚ) : ℚ := a - b * ⌊a / b⌋

/-! ### The timestamp formatter

Source (`timestamp`, lines 56–61):
```
h = int(sec // 3600)
m = int((sec % 3600) // 60)
s = sec % 60
return f"{h:02}:{m:02}:{s:06.3f}".replace(".", ",")
```
-/

/-- Round half to even on exact rationals: the rounding CPython's float
formatting applies to the exact binary value of a double.  Exact ties do
occur — `0.0625` is the double `2 ^ (-4)` and its `62.5` thousandths is a
tie — and they go to the even neighbour (`f"{0.0625:06.3f}" = "00.062"`). -/
def rhe (x : ℚ) : ℤ :=
  if x - ⌊x⌋ < 1 / 2 then ⌊x⌋
  else if 1 / 2 < x - ⌊x⌋ then ⌊x⌋ + 1
  else if 2 ∣ ⌊x⌋ then ⌊x⌋ else ⌊x⌋ + 1

/-- The numeric fields computed by `timestamp`: the hour `int(sec // 3600)`,
the minute `int((sec % 3600) // 60)`, and the seconds field `sec % 60` as the
integer number of thousandths printed by `f"{s:06.3f}"`.  CPython formats a
double to three decimal places by correctly rounding its exact binary value
with ties to even, which `rhe` reproduces on `ℚ`. -/
def timestampParts (sec : ℚ) : Int × Int × Int :=
  (⌊sec / 3600⌋, ⌊pymod sec 3600 / 60⌋, rhe (1000 * pymod sec 60))

/-- Rendering `f"{h:02}:{m:02}:{s:06.3f}".replace(".", ",")` from the fields.
With `s ∈ [0, 60)` the `%06.3f` field is two zero-padded integral digits, a
dot, and three fractional digits; the `.replace` turns the unique dot of the
formatted string into a comma, so the seconds field is rendered here with the
comma directly. -/
def renderParts : Int × Int × Int → String
  | (h, m, n) =>
      intPad2 h ++ ":" ++ intPad2 m ++ ":" ++
        pad2 (n / 1000).toNat ++ "," ++ pad3 (n % 1000).toNat

/-- The function `timestamp(sec)` of the source, over exact rationals. -/
def timestamp (sec : ℚ) : String :=
  renderParts (timestampParts sec)

/-- The clock value denoted by the rendered fields, in seconds:
`3600·h + 60·m + (thousandths)/1000`. -/
def tsVal (sec : ℚ) : ℚ :=
  ((timestampParts sec).1 * 3600 + (timestampParts sec).2.1 * 60 : Int) +
    ((timestampParts sec).2.2 : ℚ) / 1000

/-! ### The caption timestamp pattern

`^\d{2,}:\d{2}:\d{2},\d{3}$` as a decomposition of the character list. -/

/-- Every character of the list is a decimal digit. -/
def allDigits (l : List Char) : Prop := ∀ c ∈ l, c.isDigit = true

/-- The string matches `^\d{2,}:\d{2}:\d{2},\d{3}$`. -/
def srtPattern (s : String) : Prop :=
  ∃ hs ms ss fs : List Char,
    s.data = hs ++ ':' :: (ms ++ ':' :: (ss ++ ',' :: fs)) ∧
    2 ≤ hs.length ∧ ms.length = 2 ∧ ss.length = 2 ∧ fs.length = 3 ∧
    allDigits hs ∧ allDigits ms ∧ allDigits ss ∧ allDigits fs

/-- The last three characters of a rendered timestamp: its milliseconds field. -/
def msField (s : String) : String :=
  ⟨(s.data.reverse.take 3).reverse⟩

/-! ### Facts about decimal rendering -/

theorem digitChar_isDigit {d : Nat} (h : d < 10) : (Nat.digitChar d).isDigit = true := by
  interval_cases d <;> decide

theorem toDigitsCore_digits (fuel : Nat) :
    ∀ (n : Nat) (ds : List Char), (∀ c ∈ ds, c.isDigit = true) →
      ∀ c ∈ Nat.toDigitsCore 10 fuel n ds, c.isDigit = true := by
  induction fuel with
  | zero => intro n ds hds; simpa [Nat.toDigitsCore] using hds
  | succ fuel ih =>
    intro n ds hds
    have hcons : ∀ c ∈ Nat.digitChar (n % 10) :: ds, c.isDigit = true := by
      intro c hc
      rcases List.mem_cons.mp hc with rfl | hc
      · exact digitChar_isDigit (Nat.mod_lt _ (by norm_num))
      · exact hds c hc
    simp only [Nat.toDigitsCore]
    split
    · exact hcons
    · exact ih _ _ hcons

theorem repr_data_digits (n : Nat) : ∀ c ∈ (Nat.repr n).data, c.isDigit = true := by
  intro c hc
  exact toDigitsCore_digits (n + 1) n [] (by simp) c
    (by simpa [Nat.repr, Nat.toDigits, List.asString] using hc)

theorem toDigitsCore_length_ge (fuel : Nat) :
    ∀ (n : Nat) (ds : List Char), ds.length ≤ (Nat.toDigitsCore 10 fuel n ds).length := by
  induction fuel with
  | zero => intro n ds; simp [Nat.toDigitsCore]
  | succ fuel ih =>
    intro n ds
    simp only [Nat.toDigitsCore]
    split
    · simp
    · exact le_trans (by simp) (ih (n / 10) (Nat.digitChar (n % 10) :: ds))

theorem repr_length_pos (n : Nat) : 1 ≤ (Nat.repr n).length := by
  show 1 ≤ (Nat.repr n).data.length
  simp only [Nat.repr, Nat.toDigits, List.asString]
  show 1 ≤ (Nat.toDigitsCore 10 (n + 1) n []).length
  simp only [Nat.toDigitsCore]
  split
  · simp
  · exact le_trans (by simp) (toDigitsCore_length_ge n (n / 10) [Nat.digitChar (n % 10)])

theorem toDigitsCore_length_succ (fuel n : Nat) (ds : List Char) (h : 1 ≤ fuel) :
    ds.length + 1 ≤ (Nat.toDigitsCore 10 fuel n ds).length := by
  obtain ⟨f, rfl⟩ : ∃ f, fuel = f + 1 := ⟨fuel - 1, by omega⟩
  simp only [Nat.toDigitsCore]
  split
  · simp
  · exact le_trans (by simp) (toDigitsCore_length_ge f (n / 10) (Nat.digitChar (n % 10) :: ds))

theorem repr_length_two {n : Nat} (h : 10 ≤ n) : 2 ≤ (Nat.repr n).length := by
  show 2 ≤ (Nat.repr n).data.length
  simp only [Nat.repr, Nat.toDigits, List.asString]
  show 2 ≤ (Nat.toDigitsCore 10 (n + 1) n []).length
  simp only [Nat.toDigitsCore]
  split
  · exfalso; omega
  · exact le_trans (by simp) (toDigitsCore_length_succ n (n / 10) [Nat.digitChar (n % 10)] (by omega))

theorem pad2_digits (n : Nat) : allDigits (pad2 n).data := by
  intro c hc
  unfold pad2 at hc
  split at hc
  · simp only [String.data_append] at hc
    rcases List.mem_append.mp hc with hc | hc
    · simp only [show ("0" : String).data = ['0'] from rfl, List.mem_singleton] at hc
      subst hc; decide
    · exact repr_data_digits n c hc
  · exact repr_data_digits n c hc

theorem pad2_length (n : Nat) : 2 ≤ (pad2 n).length := by
  unfold pad2
  split
  · have h1 := repr_length_pos n
    simp only [String.length_append, show ("0" : String).length = 1 from rfl]
    omega
  · exact repr_length_two (by omega)

set_option maxRecDepth 4000 in
theorem pad2_lt100 : ∀ n, n < 100 →
    (pad2 n).data.length = 2 ∧ ∀ c ∈ (pad2 n).data, c.isDigit = true := by decide

set_option maxRecDepth 40000 in
theorem pad3_lt1000 : ∀ n, n < 1000 →
    (pad3 n).data.length = 3 ∧ ∀ c ∈ (pad3 n).data, c.isDigit = true := by decide

/-! ### Range and closed forms of the timestamp fields -/

theorem pymod_eq (a : ℚ) {b : ℚ} (hb : b ≠ 0) : pymod a b = b * Int.fract (a / b) := by
  unfold pymod
  rw [Int.fract, mul_sub, mul_div_cancel₀ a hb]

theorem pymod_nonneg (a : ℚ) {b : ℚ} (hb : 0 < b) : 0 ≤ pymod a b := by
  rw [pymod_eq a hb.ne']
  exact mul_nonneg hb.le (Int.fract_nonneg _)

theorem pymod_lt (a : ℚ) {b : ℚ} (hb : 0 < b) : pymod a b < b := by
  rw [pymod_eq a hb.ne']
  calc b * Int.fract (a / b) < b * 1 := mul_lt_mul_of_pos_left (Int.fract_lt_one _) hb
    _ = b := mul_one b

theorem hours_nonneg {sec : ℚ} (h : 0 ≤ sec) : 0 ≤ (timestampParts sec).1 :=
  Int.floor_nonneg.mpr (div_nonneg h (by norm_num))

theorem hours_neg {sec : ℚ} (h : sec < 0) : (timestampParts sec).1 < 0 := by
  show ⌊sec / 3600⌋ < 0
  apply Int.floor_lt.mpr
  push_cast
  exact div_neg_of_neg_of_pos h (by norm_num)

theorem minutes_nonneg (sec : ℚ) : 0 ≤ (timestampParts sec).2.1 :=
  Int.floor_nonneg.mpr (div_nonneg (pymod_nonneg sec (by norm_num)) (by norm_num))

theorem minutes_lt (sec : ℚ) : (timestampParts sec).2.1 < 60 := by
  apply Int.floor_lt.mpr
  have h := pymod_lt sec (b := 3600) (by norm_num)
  push_cast
  linarith

theorem rhe_cases (x : ℚ) : rhe x = ⌊x⌋ ∨ rhe x = ⌊x⌋ + 1 := by
  unfold rhe
  split_ifs
  · exact Or.inl rfl
  · exact Or.inr rfl
  · exact Or.inl rfl
  · exact Or.inr rfl

theorem floor_le_rhe (x : ℚ) : ⌊x⌋ ≤ rhe x := by
  rcases rhe_cases x with h | h <;> omega

theorem rhe_le_floor_add_one (x : ℚ) : rhe x ≤ ⌊x⌋ + 1 := by
  rcases rhe_cases x with h | h <;> omega

theorem rhe_mono {x y : ℚ} (h : x ≤ y) : rhe x ≤ rhe y := by
  by_cases hf : ⌊x⌋ = ⌊y⌋
  · have hx : x - ⌊x⌋ ≤ y - ⌊y⌋ := by rw [hf] at *; push_cast; linarith
    unfold rhe
    rw [hf]
    split_ifs <;> first | omega | linarith
  · have hff : ⌊x⌋ < ⌊y⌋ := lt_of_le_of_ne (Int.floor_le_floor h) hf
    have h1 := rhe_le_floor_add_one x
    have h2 := floor_le_rhe y
    omega

/-- Ties-to-even commutes with even integer shifts (arbitrary shifts would
flip the parity of the floor and break the tie case). -/
theorem rhe_sub_int_even (x : ℚ) (m : ℤ) :
    rhe (x - ((2 * m : ℤ) : ℚ)) = rhe x - 2 * m := by
  unfold rhe
  have hfr : x - ((2 * m : ℤ) : ℚ) - ((⌊x⌋ - 2 * m : ℤ) : ℚ) = x - (⌊x⌋ : ℚ) := by
    push_cast; ring
  simp only [Int.floor_sub_int, hfr]
  split_ifs <;> omega

theorem rhe_eq_of_lt_half {x : ℚ} {k : ℤ} (h1 : (k : ℚ) ≤ x) (h2 : x < k + 1 / 2) :
    rhe x = k := by
  have hf : ⌊x⌋ = k := Int.floor_eq_iff.mpr ⟨h1, by push_cast; linarith⟩
  unfold rhe
  rw [hf]
  rw [if_pos (by push_cast; linarith)]

theorem rhe_eq_of_gt_half {x : ℚ} {k : ℤ} (h1 : (k : ℚ) - 1 / 2 < x) (h2 : x ≤ k) :
    rhe x = k := by
  rcases eq_or_lt_of_le h2 with rfl | hlt
  · unfold rhe
    rw [Int.floor_intCast]
    rw [if_pos (by push_cast; norm_num)]
  · have hf : ⌊x⌋ = k - 1 := Int.floor_eq_iff.mpr ⟨by push_cast; linarith, by push_cast; linarith⟩
    unfold rhe
    rw [hf]
    rw [if_neg (by push_cast; linarith), if_pos (by push_cast; linarith)]
    omega

theorem rhe_tie_even {x : ℚ} {k : ℤ} (h1 : x = k + 1 / 2) (h2 : 2 ∣ k) : rhe x = k := by
  subst h1
  have hf : ⌊(k : ℚ) + 1 / 2⌋ = k := Int.floor_eq_iff.mpr ⟨by push_cast; linarith, by push_cast; linarith⟩
  unfold rhe
  rw [hf, show ((k : ℚ) + 1 / 2 - k) = 1 / 2 by ring]
  rw [if_neg (by norm_num), if_neg (by norm_num), if_pos h2]

theorem millis_nonneg (sec : ℚ) : 0 ≤ (timestampParts sec).2.2 := by
  show (0 : ℤ) ≤ rhe (1000 * pymod sec 60)
  have h := pymod_nonneg sec (b := 60) (by norm_num)
  calc (0 : ℤ) ≤ ⌊1000 * pymod sec 60⌋ := Int.floor_nonneg.mpr (by linarith)
    _ ≤ _ := floor_le_rhe _

theorem millis_le (sec : ℚ) : (timestampParts sec).2.2 ≤ 60000 := by
  show rhe (1000 * pymod sec 60) ≤ 60000
  have h := pymod_lt sec (b := 60) (by norm_num)
  have h1 : ⌊1000 * pymod sec 60⌋ ≤ 59999 := Int.floor_le_iff.mpr (by push_cast; linarith)
  have h2 := rhe_le_floor_add_one (1000 * pymod sec 60)
  omega

/-- The minutes field relative to plain floors of the input. -/
theorem minutes_eq (sec : ℚ) : (timestampParts sec).2.1 = ⌊sec / 60⌋ - 60 * ⌊sec / 3600⌋ := by
  show ⌊pymod sec 3600 / 60⌋ = _
  unfold pymod
  rw [show (sec - 3600 * (⌊sec / 3600⌋ : ℚ)) / 60 = sec / 60 - ((60 * ⌊sec / 3600⌋ : ℤ) : ℚ) by
    push_cast; ring]
  rw [Int.floor_sub_int]

/-- The milliseconds count relative to a single rounding of the input: the
shift `60000·⌊sec/60⌋` is even, so it commutes with ties-to-even. -/
theorem millis_eq (sec : ℚ) :
    (timestampParts sec).2.2 = rhe (1000 * sec) - 60000 * ⌊sec / 60⌋ := by
  show rhe (1000 * pymod sec 60) = _
  unfold pymod
  rw [show 1000 * (sec - 60 * (⌊sec / 60⌋ : ℚ)) =
      1000 * sec - ((2 * (30000 * ⌊sec / 60⌋) : ℤ) : ℚ) by push_cast; ring]
  rw [rhe_sub_int_even]
  ring

/-- The clock value denoted by the rendered fields is the input rounded to
the nearest thousandth: the three fields jointly re-encode `sec` exactly up
to that rounding. -/
theorem tsVal_eq (sec : ℚ) : tsVal sec = (rhe (1000 * sec) : ℚ) / 1000 := by
  unfold tsVal
  rw [minutes_eq, millis_eq, show (timestampParts sec).1 = ⌊sec / 3600⌋ from rfl]
  push_cast
  ring

/-! ### Decomposing the rendered timestamp string -/

theorem renderParts_data (h m n : Int) :
    (renderParts (h, m, n)).data =
      (intPad2 h).data ++ ':' :: ((intPad2 m).data ++ ':' ::
        ((pad2 (n / 1000).toNat).data ++ ',' :: (pad3 (n % 1000).toNat).data)) := by
  show (intPad2 h ++ ":" ++ intPad2 m ++ ":" ++
      pad2 (n / 1000).toNat ++ "," ++ pad3 (n % 1000).toNat).data = _
  simp [String.data_append, show (":" : String).data = [':'] from rfl,
    show ("," : String).data = [','] from rfl, List.append_assoc]

theorem timestamp_data (sec : ℚ) :
    (timestamp sec).data =
      (intPad2 (timestampParts sec).1).data ++ ':' ::
        ((intPad2 (timestampParts sec).2.1).data ++ ':' ::
          ((pad2 ((timestampParts sec).2.2 / 1000).toNat).data ++ ',' ::
            (pad3 ((timestampParts sec).2.2 % 1000).toNat).data)) := by
  rcases hp : timestampParts sec with ⟨h, m, n⟩
  show (renderParts (timestampParts sec)).data = _
  rw [hp]
  exact renderParts_data h m n

theorem intPad2_nonneg {z : Int} (h : 0 ≤ z) : intPad2 z = pad2 z.toNat := by
  unfold intPad2
  rw [if_neg (by omega)]

/-- For a non-negative input every field renders as pure digits of the right
width, so the output matches `^\d{2,}:\d{2}:\d{2},\d{3}$`. -/
theorem srtPattern_timestamp {sec : ℚ} (h0 : 0 ≤ sec) : srtPattern (timestamp sec) := by
  have hh := hours_nonneg h0
  have hm1 := minutes_nonneg sec
  have hm2 := minutes_lt sec
  have hn1 := millis_nonneg sec
  have hn2 := millis_le sec
  have hmN : (timestampParts sec).2.1.toNat < 100 := by omega
  have hsN : ((timestampParts sec).2.2 / 1000).toNat < 100 := by omega
  have hfN : ((timestampParts sec).2.2 % 1000).toNat < 1000 := by omega
  refine ⟨(intPad2 (timestampParts sec).1).data, (intPad2 (timestampParts sec).2.1).data,
    (pad2 ((timestampParts sec).2.2 / 1000).toNat).data,
    (pad3 ((timestampParts sec).2.2 % 1000).toNat).data,
    timestamp_data sec, ?_, ?_, ?_, ?_, ?_, ?_, ?_, ?_⟩
  · rw [intPad2_nonneg hh]
    exact pad2_length _
  · rw [intPad2_nonneg hm1]
    exact (pad2_lt100 _ hmN).1
  · exact (pad2_lt100 _ hsN).1
  · exact (pad3_lt1000 _ hfN).1
  · rw [intPad2_nonneg hh]
    exact pad2_digits _
  · rw [intPad2_nonneg hm1]
    exact (pad2_lt100 _ hmN).2
  · exact (pad2_lt100 _ hsN).2
  · exact (pad3_lt1000 _ hfN).2

/-! ### Evaluating the formatter at concrete inputs -/

/-- Turns a timestamp at a concrete rational into a fully concrete rendering
once the two floor divisions, the floor against 60 and the rounding are
settled. -/
theorem timestamp_eval (sec : ℚ) (h j m k : Int)
    (hh : ⌊sec / 3600⌋ = h)
    (hm : ⌊(sec - 3600 * (h : ℚ)) / 60⌋ = m)
    (hj : ⌊sec / 60⌋ = j)
    (hk : rhe (1000 * (sec - 60 * (j : ℚ))) = k) :
    timestamp sec = renderParts (h, m, k) := by
  unfold timestamp timestampParts pymod
  rw [hh, hj, hm, hk]

theorem take3_append (l₁ l₂ : List Char) (h : l₂.length = 3) :
    ((l₁ ++ l₂).reverse.take 3).reverse = l₂ := by
  have h3 : (3 : Nat) = l₂.reverse.length := by simp [h]
  rw [List.reverse_append, h3, List.take_left, List.reverse_reverse]

theorem msField_renderParts (h m n : Int) :
    msField (renderParts (h, m, n)) = pad3 (n % 1000).toNat := by
  have hlen : ((pad3 (n % 1000).toNat).data).length = 3 :=
    (pad3_lt1000 _ (by omega)).1
  unfold msField
  rw [show (renderParts (h, m, n)).data =
      ((intPad2 h).data ++ ':' :: ((intPad2 m).data ++ ':' ::
        (pad2 (n / 1000).toNat).data ++ [',']) ) ++ (pad3 (n % 1000).toNat).data by
    rw [renderParts_data]; simp]
  rw [take3_append _ _ hlen]

/-! ### Claim C3 -/

/-- C3, counterexample: the output string is not monotonically non-decreasing
in the string order once the hours field grows from two digits to three:
`356400 s = 99 h` renders as `"99:00:00,000"` while the later instant
`360000 s = 100 h` renders as `"100:00:00,000"`, which sorts strictly
before it. -/
theorem C3_counterexample :
    (0 : ℚ) ≤ 356400 ∧ (356400 : ℚ) ≤ 360000 ∧
    timestamp 356400 = "99:00:00,000" ∧ timestamp 360000 = "100:00:00,000" ∧
    ¬ (timestamp 356400 ≤ timestamp 360000) := by
  have e1 : timestamp 356400 = "99:00:00,000" := by
    rw [timestamp_eval 356400 99 5940 0 0]
    · decide
    · rw [Int.floor_eq_iff] <;> norm_num
    · rw [Int.floor_eq_iff] <;> norm_num
    · rw [Int.floor_eq_iff] <;> norm_num
    · apply rhe_eq_of_lt_half <;> norm_num
  have e2 : timestamp 360000 = "100:00:00,000" := by
    rw [timestamp_eval 360000 100 6000 0 0]
    · decide
    · rw [Int.floor_eq_iff] <;> norm_num
    · rw [Int.floor_eq_iff] <;> norm_num
    · rw [Int.floor_eq_iff] <;> norm_num
    · apply rhe_eq_of_lt_half <;> norm_num
  refine ⟨by norm_num, by norm_num, e1, e2, ?_⟩
  rw [e1, e2, not_le, String.lt_iff_toList_lt]
  decide

/-- C3, amended: for every `0 ≤ t ≤ t'` the output of the timestamp
formatter matches `^\d{2,}:\d{2}:\d{2},\d{3}$`, and the clock value denoted
by the rendered fields is monotonically non-decreasing in `t` (lexicographic
string order is non-decreasing only while the hours field keeps a fixed
width, which the counterexample shows). -/
theorem C3_pattern_and_denoted_value_monotone (t t' : ℚ) (h0 : 0 ≤ t) (h1 : t ≤ t') :
    srtPattern (timestamp t) ∧ tsVal t ≤ tsVal t' := by
  refine ⟨srtPattern_timestamp h0, ?_⟩
  rw [tsVal_eq, tsVal_eq]
  have hr := rhe_mono (x := 1000 * t) (y := 1000 * t') (by linarith)
  have hr' : ((rhe (1000 * t) : ℤ) : ℚ) ≤ ((rhe (1000 * t') : ℤ) : ℚ) := by
    exact_mod_cast hr
  linarith

/-- C3, witness for the amended theorem at `t = 0`, `t' = 1`. -/
theorem C3_pattern_witness : srtPattern (timestamp 0) ∧ tsVal 0 ≤ tsVal 1 :=
  C3_pattern_and_denoted_value_monotone 0 1 (by norm_num) (by norm_num)

/-! ### Claim C4 -/

/-- C4, counterexample: at `t = 2047/2048` (an exact binary double,
`≈ 0.99951171875 s`) the formatter rounds up and prints `"00:00:01,000"`,
so its milliseconds field `"000"` differs from the claimed truncation
`⌊t·1000⌋ mod 1000 = 999`. -/
theorem C4_counterexample :
    (0 : ℚ) ≤ 2047 / 2048 ∧
    timestamp (2047 / 2048) = "00:00:01,000" ∧
    (⌊(2047 / 2048 : ℚ) * 1000⌋ % 1000 : ℤ) = 999 ∧
    msField (timestamp (2047 / 2048)) ≠ pad3 ((⌊(2047 / 2048 : ℚ) * 1000⌋ % 1000).toNat) := by
  have e : timestamp (2047 / 2048) = "00:00:01,000" := by
    rw [timestamp_eval (2047 / 2048) 0 0 0 1000]
    · decide
    · rw [Int.floor_eq_iff] <;> norm_num
    · rw [Int.floor_eq_iff] <;> norm_num
    · rw [Int.floor_eq_iff] <;> norm_num
    · apply rhe_eq_of_gt_half <;> norm_num
  have hf : (⌊(2047 / 2048 : ℚ) * 1000⌋ : ℤ) = 999 := by
    rw [Int.floor_eq_iff] <;> norm_num
  refine ⟨by norm_num, e, by rw [hf]; decide, ?_⟩
  rw [e, hf]
  decide

/-- C4, amended: the formatter does not truncate but correctly rounds to
the nearest millisecond, with CPython's ties-to-even at an exact
half-millisecond: for every `t ≥ 0` the milliseconds count of the output is
`rhe(t·1000) mod 1000` and the rendered milliseconds field is that number
zero-padded to three digits; in particular the representable tie
`t = 1/16 = 0.0625` (an exact double) prints `"00:00:00,062"`, its
thousandths `62.5` going to the even neighbour `62`. -/
theorem C4_millis_are_rounded (t : ℚ) (h0 : 0 ≤ t) :
    (timestampParts t).2.2 % 1000 = rhe (1000 * t) % 1000 ∧
    msField (timestamp t) = pad3 ((rhe (1000 * t) % 1000).toNat) ∧
    timestamp (1 / 16) = "00:00:00,062" := by
  have hn := millis_eq t
  refine ⟨?_, ?_, ?_⟩
  · rw [hn]; omega
  · rcases hp : timestampParts t with ⟨h, m, n⟩
    have ht : timestamp t = renderParts (h, m, n) := by
      rw [timestamp, hp]
    rw [ht, msField_renderParts]
    have hn' : n % 1000 = rhe (1000 * t) % 1000 := by
      have : n = rhe (1000 * t) - 60000 * ⌊t / 60⌋ := by rw [← hn, hp]
      omega
    rw [hn']
  · rw [timestamp_eval (1 / 16) 0 0 0 62]
    · decide
    · rw [Int.floor_eq_iff] <;> norm_num
    · rw [Int.floor_eq_iff] <;> norm_num
    · rw [Int.floor_eq_iff] <;> norm_num
    · apply rhe_tie_even
      · norm_num
      · decide

/-- C4, witness for the amended theorem at `t = 2047/2048`. -/
theorem C4_millis_witness :
    (timestampParts (2047 / 2048)).2.2 % 1000 = rhe ((1000 : ℚ) * (2047 / 2048)) % 1000 ∧
    msField (timestamp (2047 / 2048)) =
      pad3 ((rhe ((1000 : ℚ) * (2047 / 2048)) % 1000).toNat) ∧
    timestamp (1 / 16) = "00:00:00,062" :=
  C4_millis_are_rounded (2047 / 2048) (by norm_num)

/-! ### Claim C5 -/

/-- C5, counterexample: a negative input does not fail: the code has no
error path at all, and `timestamp(-1)` returns the string `"-1:59:59,000"`
(hour `int(-1 // 3600) = -1`, minute and second fields wrapped modulo the
divisor as Python `%` does). -/
theorem C5_counterexample : timestamp (-1) = "-1:59:59,000" := by
  rw [timestamp_eval (-1) (-1) (-1) 59 59000]
  · decide
  · rw [Int.floor_eq_iff] <;> norm_num
  · rw [Int.floor_eq_iff] <;> norm_num
  · rw [Int.floor_eq_iff] <;> norm_num
  · apply rhe_eq_of_lt_half <;> norm_num

/-- C5, amended: negative input is not rejected; the formatter totally
computes a string whose hours field is negative, so the output starts with
a minus sign and never matches the caption pattern. -/
theorem C5_negative_input_not_rejected (t : ℚ) (ht : t < 0) :
    (timestamp t).data.head? = some '-' ∧ ¬ srtPattern (timestamp t) := by
  have hh := hours_neg ht
  have hi : (intPad2 (timestampParts t).1).data =
      '-' :: (Nat.repr (timestampParts t).1.natAbs).data := by
    unfold intPad2
    rw [if_pos hh]
    simp [String.data_append, show ("-" : String).data = ['-'] from rfl]
  have hd : (timestamp t).data = '-' ::
      ((Nat.repr (timestampParts t).1.natAbs).data ++ ':' ::
        ((intPad2 (timestampParts t).2.1).data ++ ':' ::
          ((pad2 ((timestampParts t).2.2 / 1000).toNat).data ++ ',' ::
            (pad3 ((timestampParts t).2.2 % 1000).toNat).data))) := by
    rw [timestamp_data, hi]
    simp
  constructor
  · rw [hd]; rfl
  · rintro ⟨hs, ms, ss, fs, heq, hlen, -, -, -, hdig, -, -, -⟩
    cases hs with
    | nil => simp at hlen
    | cons c hs' =>
      rw [hd] at heq
      have hc : c = '-' := by
        have := heq.symm
        simp only [List.cons_append, List.cons.injEq] at this
        exact this.1
      have := hdig c (by simp)
      rw [hc] at this
      simp at this

/-- C5, witness for the amended theorem at `t = -1`. -/
theorem C5_negative_witness :
    (timestamp (-1)).data.head? = some '-' ∧ ¬ srtPattern (timestamp (-1)) :=
  C5_negative_input_not_rejected (-1) (by norm_num)

/-! ### Segments and SRT serialization

Data model for the rest of the script: a Whisper segment is a dict with
`start`/`end` floats and text entries; the script reads `seg["text"]`,
`seg["original_text"]` (possibly absent) and `seg.get(...)` fallbacks. -/

/-- Python `str.strip()`: drop leading and trailing whitespace.  (Stated
with `Char.isWhitespace`; structural so concrete instances evaluate.) -/
def pyStrip (s : String) : String :=
  ⟨((s.data.dropWhile Char.isWhitespace).reverse.dropWhile Char.isWhitespace).reverse⟩

/-- One recognized segment as the script consumes it.  `stop` is the dict's
`"end"` key (`end` is reserved in Lean); `none` models an absent key. -/
structure Segment where
  start : ℚ
  stop : ℚ
  text : Option String
  original_text : Option String

/-- The selectable text field (`text_key` argument of `save_subtitles`). -/
inductive TextKey where
  | text
  | original_text

/-- Dictionary access `seg[k]` for the two text keys; `none` is a `KeyError`. -/
def getKey (seg : Segment) : TextKey → Option String
  | TextKey.text => seg.text
  | TextKey.original_text => seg.original_text

/-- One serialized SRT block — the three `f.write` calls of the writers for
one segment: index line, `start --> end` timestamp line, the text line, and
the blank line (text is passed already stripped where the source strips). -/
def srtBlock (i : Nat) (seg : Segment) (txt : String) : String :=
  Nat.repr i ++ "\n" ++ timestamp seg.start ++ " --> " ++ timestamp seg.stop ++ "\n" ++
    txt ++ "\n\n"

/-- Concatenation of serialized blocks in order (file content equals the
concatenation of everything written through the handle). -/
def strJoin : List String → String
  | [] => ""
  | s :: rest => s ++ strJoin rest

/-- The write loop of `save_subtitles` (lines 96–100): `enumerate(segments, 1)`
with `seg[text_key].strip()`; a missing key raises `KeyError`, modelled as
`none`.  Returns the full content written. -/
def saveSubtitlesContent (key : TextKey) : Nat → List Segment → Option String
  | _, [] => some ""
  | i, seg :: rest =>
    match getKey seg key with
    | none => none
    | some txt =>
      (saveSubtitlesContent key (i + 1) rest).map
        (fun r => srtBlock i seg (pyStrip txt) ++ r)

/-- Function `save_subtitles(segments, filename, text_key, lang_label)` (lines 93–101):
the content it writes to `filename`, or `none` when a segment lacks the
selected key (the print side effects and the file handle are irrelevant to
content). -/
def save_subtitles (segments : List Segment) (key : TextKey) : Option String :=
  saveSubtitlesContent key 1 segments

/-- The native-caption text of one segment in `main` (line 138):
`seg.get("original_text", seg.get("text", "")).strip()`. -/
def zhText (seg : Segment) : String :=
  pyStrip (seg.original_text.getD (seg.text.getD ""))

/-- The inline native-caption write loop of `main` (lines 134–139):
`enumerate(segments, 1)` over `zhText`; total — no key can fail here. -/
def zhContent : Nat → List Segment → String
  | _, [] => ""
  | i, seg :: rest => srtBlock i seg (zhText seg) ++ zhContent (i + 1) rest

/-- The failure modes a run can surface (§7 of the spec). -/
inductive Err where
  | downloadError
  | extractionError
  | recognitionError
  | translationError
  | keyError
deriving DecidableEq

/-- The buffering loop of `translate_and_save` (lines 107–111): per segment,
strip `seg["text"]`, call `argtr.translate(en_text, src_lang, dst_lang)`,
and append the block to `out_blocks`; the call counter starts at the first
1-based index (source: `enumerate(segments)` writing `i+1`).  Returns the
buffered content together with the engine invocations made, or the first
propagated failure. -/
def tasBlocks (engine : String → String → String → Except Err String)
    (src dst : String) : Nat → List Segment →
    Except Err (String × List (String × String × String))
  | _, [] => Except.ok ("", [])
  | i, seg :: rest =>
    match seg.text with
    | none => Except.error Err.keyError
    | some t =>
      match engine (pyStrip t) src dst with
      | Except.error e => Except.error e
      | Except.ok tr =>
        match tasBlocks engine src dst (i + 1) rest with
        | Except.error e => Except.error e
        | Except.ok (c, calls) =>
          Except.ok (srtBlock i seg tr ++ c, (pyStrip t, src, dst) :: calls)

/-! ### Configuration, file names, and the orchestrated state -/

/-- Constant `PROJECT_NAME` (line 21). -/
def PROJECT_NAME : String := "my_video"

/-- Constant `M3U8_URL` (line 24). -/
def M3U8_URL : String := "https://example.com/path/to/video/playlist.m3u8"

/-- The f-string `f"{p}.mp4"` (line 44), as a function of the project identifier. -/
def videoName (p : String) : String := p ++ ".mp4"

/-- The f-string `f"{p}_audio.wav"` (line 45). -/
def audioName (p : String) : String := p ++ "_audio.wav"

/-- The f-string `f"{p}_{lang}.srt"` (lines 46–51, one per language). -/
def subName (p lang : String) : String := p ++ "_" ++ lang ++ ".srt"

/-- Modelled from the spec (§3, §6): the naming scheme
`<project>_<kind>.<ext>` that the claim asserts every derived name follows. -/
def kindName (p kind ext : String) : String := p ++ "_" ++ kind ++ "." ++ ext

def VIDEO_NAME : String := videoName PROJECT_NAME
def AUDIO_NAME : String := audioName PROJECT_NAME
def ZH_SUB : String := subName PROJECT_NAME "zh"
def EN_SUB : String := subName PROJECT_NAME "en"
def RU_SUB : String := subName PROJECT_NAME "ru"
def FR_SUB : String := subName PROJECT_NAME "fr"
def ES_SUB : String := subName PROJECT_NAME "es"
def DE_SUB : String := subName PROJECT_NAME "de"

/-- One external-tool invocation, recorded so the claims can speak about a
stage's side-effecting work being (not) executed. -/
inductive ToolCall where
  | ytdlp (url out : String)
  | ffmpeg (input out : String)
  | whisperRun (audio : String)
deriving DecidableEq

/-- Pipeline state: the set of paths that exist, and the tool invocations
made so far. -/
structure PState where
  fs : List String
  calls : List ToolCall
deriving DecidableEq

/-- Behaviour of the external collaborators for a run: whether the download
and the extraction subprocesses succeed, the recognition outcome (`none` is
a raised `RecognitionError`), and the translation engine. -/
structure World where
  downloadOk : Bool
  extractOk : Bool
  recognition : Option (List Segment)
  engine : String → String → String → Except Err String

/-- Effect of `open(path, "w")` and of subprocess output files: the path now exists. -/
def addFile (p : String) (fs : List String) : List String :=
  if p ∈ fs then fs else fs ++ [p]

/-- Function `download_video` (lines 64–71): skip when `VIDEO_NAME` already exists,
otherwise run yt-dlp (`check=True`: a failing subprocess raises). -/
def download_video (w : World) (s : PState) : Except (Err × PState) PState :=
  if VIDEO_NAME ∈ s.fs then Except.ok s
  else
    let s' : PState := { s with calls := s.calls ++ [ToolCall.ytdlp M3U8_URL VIDEO_NAME] }
    if w.downloadOk then Except.ok { s' with fs := addFile VIDEO_NAME s'.fs }
    else Except.error (Err.downloadError, s')

/-- Function `extract_audio` (lines 74–81): skip when `AUDIO_NAME` already exists,
otherwise run ffmpeg. -/
def extract_audio (w : World) (s : PState) : Except (Err × PState) PState :=
  if AUDIO_NAME ∈ s.fs then Except.ok s
  else
    let s' : PState := { s with calls := s.calls ++ [ToolCall.ffmpeg VIDEO_NAME AUDIO_NAME] }
    if w.extractOk then Except.ok { s' with fs := addFile AUDIO_NAME s'.fs }
    else Except.error (Err.extractionError, s')

/-- Function `recognize_and_translate_en` (lines 84–90): a single whisper invocation
whose outcome the `World` provides. -/
def recognize_and_translate_en (w : World) (s : PState) :
    Except (Err × PState) (List Segment × PState) :=
  let s' : PState := { s with calls := s.calls ++ [ToolCall.whisperRun AUDIO_NAME] }
  match w.recognition with
  | none => Except.error (Err.recognitionError, s')
  | some segs => Except.ok (segs, s')

/-- Function `save_subtitles` with its file effect: `open(filename, "w")` creates or
truncates the file before any block is written, so the path exists even if
a later `seg[text_key]` raises `KeyError`. -/
def save_subtitles_run (segments : List Segment) (filename : String) (key : TextKey)
    (s : PState) : Except (Err × PState) PState :=
  let s' : PState := { s with fs := addFile filename s.fs }
  match save_subtitles segments key with
  | none => Except.error (Err.keyError, s')
  | some _ => Except.ok s'

/-- Function `translate_and_save` (lines 104–114): every block is buffered in
`out_blocks` first; the output file is opened and written only after the
whole loop succeeded, so a propagated failure leaves the filesystem
untouched. -/
def translate_and_save (w : World) (segments : List Segment)
    (src dst filename : String) (s : PState) : Except (Err × PState) PState :=
  match tasBlocks w.engine src dst 1 segments with
  | Except.error e => Except.error (e, s)
  | Except.ok _ => Except.ok { s with fs := addFile filename s.fs }

/-- The save flags of the settings block (lines 31–41), passed explicitly
(the script reads them as module globals). -/
structure Config where
  SAVE_AUDIO : Bool
  SAVE_ZH_SUB : Bool
  SAVE_EN_SUB : Bool
  SAVE_LANGS : List (String × Bool)

/-- The values the settings block assigns (lines 31–41). -/
def defaultConfig : Config :=
  { SAVE_AUDIO := true, SAVE_ZH_SUB := true, SAVE_EN_SUB := true,
    SAVE_LANGS := [("ru", true), ("fr", false), ("es", false), ("de", false)] }

/-- Dict `lang_map` (lines 151–156): code to (display name, output path). -/
def lang_map : List (String × String × String) :=
  [("ru", "Russian", RU_SUB), ("fr", "French", FR_SUB),
   ("es", "Spanish", ES_SUB), ("de", "German", DE_SUB)]

/-- Step 4 of `main` (lines 158–163): iterate the `SAVE_LANGS` entries,
skipping disabled codes; `lang_map[code]` raises `KeyError` for a code not
in the map. -/
def langLoop (w : World) (segments : List Segment) :
    List (String × Bool) → PState → Except (Err × PState) PState
  | [], s => Except.ok s
  | (code, enabled) :: rest, s =>
    if enabled then
      match lang_map.lookup code with
      | none => Except.error (Err.keyError, s)
      | some nf =>
        match translate_and_save w segments "en" code nf.2 s with
        | Except.error es => Except.error es
        | Except.ok s' => langLoop w segments rest s'
    else langLoop w segments rest s

/-- Function `main` (lines 117–170): download, optional extraction, recognition,
optional native and English caption writes, the per-language loop and the
optional audio cleanup.  The stages are sequenced with `Except.bind`, which
is exactly Python's exception propagation: any failure aborts the remaining
stages.  The result carries the final state, on failure paired with the
error. -/
def main (cfg : Config) (w : World) (s0 : PState) : Except (Err × PState) PState :=
  (download_video w s0).bind (fun s1 =>
    (if cfg.SAVE_AUDIO then extract_audio w s1 else Except.ok s1).bind (fun s2 =>
      (recognize_and_translate_en w s2).bind (fun ps =>
        let segments := ps.1
        let s4 := if cfg.SAVE_ZH_SUB then { ps.2 with fs := addFile ZH_SUB ps.2.fs } else ps.2
        (if cfg.SAVE_EN_SUB then save_subtitles_run segments EN_SUB TextKey.text s4
         else Except.ok s4).bind (fun s5 =>
          (langLoop w segments cfg.SAVE_LANGS s5).bind (fun s6 =>
            Except.ok (if cfg.SAVE_AUDIO then s6
              else if AUDIO_NAME ∈ s6.fs then { s6 with fs := s6.fs.erase AUDIO_NAME }
              else s6))))))

/-! ### Claim C1 -/

/-- C1: when every segment carries the selected field, `save_subtitles`
writes exactly one block per segment, in input order, with 1-based
consecutive indices, the `<formatted start> --> <formatted end>` line, the
stripped selected text, and a blank line after every block including the
last. -/
theorem C1_save_subtitles_block_structure (segments : List Segment) (key : TextKey)
    (h : ∀ seg ∈ segments, (getKey seg key).isSome = true) :
    save_subtitles segments key =
      some (strJoin ((segments.enumFrom 1).map
        (fun p => srtBlock p.1 p.2 (pyStrip ((getKey p.2 key).getD ""))))) := by
  unfold save_subtitles
  suffices H : ∀ segs : List Segment, (∀ seg ∈ segs, (getKey seg key).isSome = true) →
      ∀ i, saveSubtitlesContent key i segs =
        some (strJoin ((segs.enumFrom i).map
          (fun p => srtBlock p.1 p.2 (pyStrip ((getKey p.2 key).getD ""))))) by
    exact H segments h 1
  intro segs
  induction segs with
  | nil => intro _ i; rfl
  | cons seg rest ih =>
    intro hall i
    obtain ⟨t, ht⟩ := Option.isSome_iff_exists.mp (hall seg (List.mem_cons_self _ _))
    simp only [saveSubtitlesContent, ht, List.enumFrom_cons, List.map_cons, strJoin]
    rw [ih (fun s hs => hall s (List.mem_cons_of_mem _ hs)) (i + 1)]
    simp [ht]

/-- C1, witness: two segments with a primary text field. -/
theorem C1_save_subtitles_witness :
    save_subtitles [⟨0, 3/2, some " Hello ", none⟩, ⟨3/2, 3, some "World", some "你好"⟩]
        TextKey.text =
      some (strJoin (([(⟨0, 3/2, some " Hello ", none⟩ : Segment),
          ⟨3/2, 3, some "World", some "你好"⟩].enumFrom 1).map
        (fun p => srtBlock p.1 p.2 (pyStrip ((getKey p.2 TextKey.text).getD ""))))) :=
  C1_save_subtitles_block_structure _ TextKey.text (by decide)

/-! ### Claim C2 -/

/-- C2, counterexample: `save_subtitles` has no fallback: asked for
`original_text` on a segment without it, it raises `KeyError` (`none`)
instead of emitting the primary text. -/
theorem C2_counterexample :
    save_subtitles [⟨0, 1, some "hi", none⟩] TextKey.original_text = none := rfl

/-- C2, amended: the fallback chain (original text, then primary text, then
the empty string, stripped) lives only in the native-caption path inside
`main` (lines 132–140), which never fails; the generic writer
`save_subtitles` raises `KeyError` when its selected field is absent. -/
theorem C2_fallback_only_in_main_zh_path (segments : List Segment) (seg : Segment)
    (h1 : seg.original_text = none) :
    zhContent 1 segments =
      strJoin ((segments.enumFrom 1).map (fun p => srtBlock p.1 p.2 (zhText p.2))) ∧
    zhText seg = pyStrip (seg.text.getD "") ∧
    save_subtitles (seg :: segments) TextKey.original_text = none := by
  refine ⟨?_, ?_, ?_⟩
  · suffices H : ∀ (segs : List Segment) (i : Nat), zhContent i segs =
        strJoin ((segs.enumFrom i).map (fun p => srtBlock p.1 p.2 (zhText p.2))) by
      exact H segments 1
    intro segs
    induction segs with
    | nil => intro i; rfl
    | cons s rest ih => intro i; simp [zhContent, List.enumFrom_cons, strJoin, ih]
  · unfold zhText
    rw [h1]
    rfl
  · show saveSubtitlesContent TextKey.original_text 1 (seg :: segments) = none
    simp [saveSubtitlesContent, getKey, h1]

/-- C2, witness: a segment with only a primary text field. -/
theorem C2_fallback_witness :
    zhContent 1 ([] : List Segment) =
      strJoin ((([] : List Segment).enumFrom 1).map
        (fun p => srtBlock p.1 p.2 (zhText p.2))) ∧
    zhText ⟨0, 1, some " hi ", none⟩ =
      pyStrip ((⟨0, 1, some " hi ", none⟩ : Segment).text.getD "") ∧
    save_subtitles [⟨0, 1, some " hi ", none⟩] TextKey.original_text = none :=
  C2_fallback_only_in_main_zh_path [] ⟨0, 1, some " hi ", none⟩ rfl

/-! ### Claim C6 -/

/-- C6: with every segment carrying `"text"` and the engine total, the
fan-out invokes the translation engine exactly once per segment, in input
order, with the segment's (stripped) text and the source and target codes,
and the buffered caption content keeps the original order and re-uses each
original segment's `start`/`end` through the same timestamp formatter. -/
theorem C6_fanout_one_call_per_segment (eng : String → String → String → String)
    (segments : List Segment) (src dst : String)
    (h : ∀ seg ∈ segments, seg.text.isSome = true) :
    tasBlocks (fun t a b => Except.ok (eng t a b)) src dst 1 segments =
      Except.ok
        (strJoin ((segments.enumFrom 1).map
          (fun p => srtBlock p.1 p.2 (eng (pyStrip (p.2.text.getD "")) src dst))),
         segments.map (fun seg => (pyStrip (seg.text.getD ""), src, dst))) := by
  suffices H : ∀ segs : List Segment, (∀ seg ∈ segs, seg.text.isSome = true) →
      ∀ i, tasBlocks (fun t a b => Except.ok (eng t a b)) src dst i segs =
        Except.ok
          (strJoin ((segs.enumFrom i).map
            (fun p => srtBlock p.1 p.2 (eng (pyStrip (p.2.text.getD "")) src dst))),
           segs.map (fun seg => (pyStrip (seg.text.getD ""), src, dst))) by
    exact H segments h 1
  intro segs
  induction segs with
  | nil => intro _ i; rfl
  | cons seg rest ih =>
    intro hall i
    obtain ⟨t, ht⟩ := Option.isSome_iff_exists.mp (hall seg (List.mem_cons_self _ _))
    simp only [tasBlocks, ht, List.enumFrom_cons, List.map_cons, strJoin]
    rw [ih (fun s hs => hall s (List.mem_cons_of_mem _ hs)) (i + 1)]
    simp [ht]

/-- C6, witness: two segments under the engine appending `"!"`. -/
theorem C6_fanout_witness :
    tasBlocks (fun t _ _ => Except.ok (t ++ "!")) "en" "ru" 1
        [⟨0, 1, some "a", none⟩, ⟨1, 2, some " b", some "B"⟩] =
      Except.ok
        (strJoin (([(⟨0, 1, some "a", none⟩ : Segment),
            ⟨1, 2, some " b", some "B"⟩].enumFrom 1).map
          (fun p => srtBlock p.1 p.2 (pyStrip (p.2.text.getD "") ++ "!"))),
         [(⟨0, 1, some "a", none⟩ : Segment), ⟨1, 2, some " b", some "B"⟩].map
           (fun seg => (pyStrip (seg.text.getD ""), "en", "ru"))) :=
  C6_fanout_one_call_per_segment (fun t _ _ => t ++ "!") _ "en" "ru" (by decide)

/-! ### Claim C7 -/

theorem mem_addFile (p : String) (fs : List String) : p ∈ addFile p fs := by
  unfold addFile
  split
  · assumption
  · simp

/-- C7: the stage gates of the download and extraction stages: when the
stage's artifact already exists the stage returns its state unchanged — no
tool invocation, same filesystem — and after any successful invocation a
second invocation is the identity (the tool is never re-executed). -/
theorem C7_stage_gate_skip_and_idempotent (w : World) (s : PState) :
    (VIDEO_NAME ∈ s.fs → download_video w s = Except.ok s) ∧
    (AUDIO_NAME ∈ s.fs → extract_audio w s = Except.ok s) ∧
    (∀ s', download_video w s = Except.ok s' → download_video w s' = Except.ok s') ∧
    (∀ s', extract_audio w s = Except.ok s' → extract_audio w s' = Except.ok s') := by
  have hd : ∀ s' : PState, download_video w s = Except.ok s' → VIDEO_NAME ∈ s'.fs := by
    intro s' h
    unfold download_video at h
    split at h
    · cases h; assumption
    · split at h
      · cases h; exact mem_addFile _ _
      · cases h
  have ha : ∀ s' : PState, extract_audio w s = Except.ok s' → AUDIO_NAME ∈ s'.fs := by
    intro s' h
    unfold extract_audio at h
    split at h
    · cases h; assumption
    · split at h
      · cases h; exact mem_addFile _ _
      · cases h
  refine ⟨?_, ?_, ?_, ?_⟩
  · intro hm; unfold download_video; rw [if_pos hm]
  · intro hm; unfold extract_audio; rw [if_pos hm]
  · intro s' h; unfold download_video; rw [if_pos (hd s' h)]
  · intro s' h; unfold extract_audio; rw [if_pos (ha s' h)]

/-- C7, witness: both artifacts already on disk. -/
theorem C7_stage_gate_witness :
    download_video ⟨true, true, some [], fun t _ _ => Except.ok t⟩
        ⟨[VIDEO_NAME, AUDIO_NAME], []⟩ = Except.ok ⟨[VIDEO_NAME, AUDIO_NAME], []⟩ ∧
    extract_audio ⟨true, true, some [], fun t _ _ => Except.ok t⟩
        ⟨[VIDEO_NAME, AUDIO_NAME], []⟩ = Except.ok ⟨[VIDEO_NAME, AUDIO_NAME], []⟩ :=
  ⟨(C7_stage_gate_skip_and_idempotent _ _).1 (by simp),
   (C7_stage_gate_skip_and_idempotent _ _).2.1 (by simp)⟩

/-! ### Claim C9 -/

/-- C9, counterexample: the video output breaks the `<project>_<kind>.<ext>`
scheme: for the script's project identifier it is `"my_video.mp4"`, and no
`kind` makes `<project>_<kind>.mp4` equal to it (the scheme's fixed parts
are already longer than the name). -/
theorem C9_counterexample :
    VIDEO_NAME = "my_video.mp4" ∧
    ¬ ∃ kind : String, VIDEO_NAME = kindName PROJECT_NAME kind "mp4" := by
  refine ⟨rfl, ?_⟩
  rintro ⟨kind, hk⟩
  have hlen := congrArg (fun s => s.data.length) hk
  simp only [VIDEO_NAME, videoName, PROJECT_NAME, kindName, String.data_append,
    List.length_append,
    show ("my_video" : String).data.length = 8 from rfl,
    show (".mp4" : String).data.length = 4 from rfl,
    show ("_" : String).data.length = 1 from rfl,
    show ("." : String).data.length = 1 from rfl,
    show ("mp4" : String).data.length = 3 from rfl] at hlen
  omega

/-- C9, amended: the audio and every caption name follow
`<project>_<kind>.<ext>` (kind `audio` with `wav`, a language code with
`srt`), for any project identifier; the video output alone is
`<project>.mp4`, with no kind component. -/
theorem C9_naming_scheme (p lang : String) :
    audioName p = kindName p "audio" "wav" ∧
    subName p lang = kindName p lang "srt" ∧
    videoName p = p ++ ".mp4" ∧
    VIDEO_NAME = videoName PROJECT_NAME ∧ AUDIO_NAME = audioName PROJECT_NAME ∧
    ZH_SUB = subName PROJECT_NAME "zh" ∧ EN_SUB = subName PROJECT_NAME "en" ∧
    RU_SUB = subName PROJECT_NAME "ru" ∧ FR_SUB = subName PROJECT_NAME "fr" ∧
    ES_SUB = subName PROJECT_NAME "es" ∧ DE_SUB = subName PROJECT_NAME "de" := by
  refine ⟨?_, ?_, rfl, rfl, rfl, rfl, rfl, rfl, rfl, rfl, rfl⟩
  · unfold audioName kindName
    simp only [String.append_assoc]
    rfl
  · unfold subName kindName
    simp only [String.append_assoc]
    rfl

/-! ### Claim C10 -/

theorem tasBlocks_ok_engine (engine : String → String → String → Except Err String)
    (src dst : String) :
    ∀ (segs : List Segment) (i : Nat) v, tasBlocks engine src dst i segs = Except.ok v →
      ∀ seg ∈ segs, ∃ t r, seg.text = some t ∧
        engine (pyStrip t) src dst = Except.ok r := by
  intro segs
  induction segs with
  | nil => intro i v _ seg h; cases h
  | cons sg rest ih =>
    intro i v htb seg hmem
    cases hst : sg.text with
    | none =>
      simp only [tasBlocks, hst] at htb
      cases htb
    | some t =>
      simp only [tasBlocks, hst] at htb
      cases heng : engine (pyStrip t) src dst with
      | error e => rw [heng] at htb; cases htb
      | ok r =>
        rw [heng] at htb
        cases hrest : tasBlocks engine src dst (i + 1) rest with
        | error e => rw [hrest] at htb; cases htb
        | ok v' =>
          rcases List.mem_cons.mp hmem with rfl | hmem
          · exact ⟨t, r, hst, heng⟩
          · exact ih (i + 1) v' hrest seg hmem

/-- C10: the fan-out buffers all blocks in memory and touches the
filesystem only after every translation succeeded: either it succeeds —
in which case every segment's engine call succeeded and the state gains
exactly the output file — or it fails and returns the input state
unchanged, so no new or partial caption file exists on error. -/
theorem C10_buffered_write_or_untouched (w : World) (segments : List Segment)
    (src dst filename : String) (s : PState) :
    (translate_and_save w segments src dst filename s =
        Except.ok { s with fs := addFile filename s.fs } ∧
      ∀ seg ∈ segments, ∃ t r, seg.text = some t ∧
        w.engine (pyStrip t) src dst = Except.ok r) ∨
    (∃ e, translate_and_save w segments src dst filename s = Except.error (e, s)) := by
  unfold translate_and_save
  cases htb : tasBlocks w.engine src dst 1 segments with
  | error e => exact Or.inr ⟨e, rfl⟩
  | ok v =>
    exact Or.inl ⟨rfl, tasBlocks_ok_engine w.engine src dst segments 1 v htb⟩

/-- C10, witness: an engine failing on every input, one segment. -/
theorem C10_untouched_witness :
    (translate_and_save ⟨true, true, none, fun _ _ _ => Except.error Err.translationError⟩
        [⟨0, 1, some "x", none⟩] "en" "ru" RU_SUB ⟨[], []⟩ =
        Except.ok ⟨addFile RU_SUB [], []⟩ ∧
      ∀ seg ∈ [(⟨0, 1, some "x", none⟩ : Segment)], ∃ t r, seg.text = some t ∧
        (Except.error Err.translationError : Except Err String) = Except.ok r) ∨
    (∃ e, translate_and_save ⟨true, true, none, fun _ _ _ => Except.error Err.translationError⟩
        [⟨0, 1, some "x", none⟩] "en" "ru" RU_SUB ⟨[], []⟩ = Except.error (e, ⟨[], []⟩)) :=
  C10_buffered_write_or_untouched _ _ "en" "ru" RU_SUB _

/-! ### Claim C8 -/

theorem download_video_ok_cases {w : World} {s s' : PState}
    (h : download_video w s = Except.ok s') :
    s' = s ∨ s' = { s with fs := addFile VIDEO_NAME s.fs,
                           calls := s.calls ++ [ToolCall.ytdlp M3U8_URL VIDEO_NAME] } := by
  unfold download_video at h
  split at h
  · cases h; exact Or.inl rfl
  · split at h
    · cases h; exact Or.inr rfl
    · cases h

theorem extract_audio_ok_cases {w : World} {s s' : PState}
    (h : extract_audio w s = Except.ok s') :
    s' = s ∨ s' = { s with fs := addFile AUDIO_NAME s.fs,
                           calls := s.calls ++ [ToolCall.ffmpeg VIDEO_NAME AUDIO_NAME] } := by
  unfold extract_audio at h
  split at h
  · cases h; exact Or.inl rfl
  · split at h
    · cases h; exact Or.inr rfl
    · cases h

theorem mem_addFile_cases {p q : String} {fs : List String} (h : p ∈ addFile q fs) :
    p ∈ fs ∨ p = q := by
  unfold addFile at h
  split at h
  · exact Or.inl h
  · rcases List.mem_append.mp h with h | h
    · exact Or.inl h
    · right; simpa using h

theorem download_video_ok_fs {w : World} {s s' : PState}
    (h : download_video w s = Except.ok s') :
    ∀ p ∈ s'.fs, p ∈ s.fs ∨ p = VIDEO_NAME := by
  intro p hp
  rcases download_video_ok_cases h with rfl | rfl
  · exact Or.inl hp
  · exact mem_addFile_cases hp

theorem extract_audio_ok_fs {w : World} {s s' : PState}
    (h : extract_audio w s = Except.ok s') :
    ∀ p ∈ s'.fs, p ∈ s.fs ∨ p = AUDIO_NAME := by
  intro p hp
  rcases extract_audio_ok_cases h with rfl | rfl
  · exact Or.inl hp
  · exact mem_addFile_cases hp

theorem download_video_err_fs {w : World} {s : PState} {e : Err} {s' : PState}
    (h : download_video w s = Except.error (e, s')) : s'.fs = s.fs := by
  unfold download_video at h
  split at h
  · cases h
  · split at h
    · cases h
    · simp only [Except.error.injEq, Prod.mk.injEq] at h
      rw [← h.2]

theorem extract_audio_err_fs {w : World} {s : PState} {e : Err} {s' : PState}
    (h : extract_audio w s = Except.error (e, s')) : s'.fs = s.fs := by
  unfold extract_audio at h
  split at h
  · cases h
  · split at h
    · cases h
    · simp only [Except.error.injEq, Prod.mk.injEq] at h
      rw [← h.2]

theorem recognize_err {w : World} {s : PState} (hrec : w.recognition = none) :
    recognize_and_translate_en w s =
      Except.error (Err.recognitionError,
        { s with calls := s.calls ++ [ToolCall.whisperRun AUDIO_NAME] }) := by
  unfold recognize_and_translate_en
  rw [hrec]

theorem except_bind_ok {α β γ : Type} (a : α) (f : α → Except γ β) :
    (Except.ok a : Except γ α).bind f = f a := rfl

theorem except_bind_error {α β γ : Type} (e : γ) (f : α → Except γ β) :
    (Except.error e : Except γ α).bind f = Except.error e := rfl

/-- C8: in every run whose recognition stage fails, the pipeline reports
failure, and no caption file of any kind is created: every path existing at
the end already existed initially or is the video/audio artifact of the
earlier stages (in particular no `.srt` path is ever added — the run aborts
before every caption-writing stage). -/
theorem C8_recognition_failure_no_captions (cfg : Config) (w : World) (s0 : PState)
    (hrec : w.recognition = none) :
    ∃ e s', main cfg w s0 = Except.error (e, s') ∧
      ∀ p ∈ s'.fs, p ∈ s0.fs ∨ p = VIDEO_NAME ∨ p = AUDIO_NAME := by
  unfold main
  cases hd : download_video w s0 with
  | error es =>
    rcases es with ⟨e, s'⟩
    rw [except_bind_error]
    exact ⟨e, s', rfl, fun p hp => Or.inl (by rw [← download_video_err_fs hd]; exact hp)⟩
  | ok s1 =>
    have h1 := download_video_ok_fs hd
    rw [except_bind_ok]
    cases hsa : cfg.SAVE_AUDIO with
    | false =>
      rw [if_neg Bool.false_ne_true, except_bind_ok,
        recognize_err hrec, except_bind_error]
      refine ⟨Err.recognitionError, _, rfl, ?_⟩
      intro p hp
      rcases h1 p hp with hp' | hp'
      · exact Or.inl hp'
      · exact Or.inr (Or.inl hp')
    | true =>
      rw [if_pos rfl]
      cases he : extract_audio w s1 with
      | error es =>
        rcases es with ⟨e, s'⟩
        rw [except_bind_error]
        refine ⟨e, s', rfl, ?_⟩
        intro p hp
        rw [extract_audio_err_fs he] at hp
        rcases h1 p hp with hp' | hp'
        · exact Or.inl hp'
        · exact Or.inr (Or.inl hp')
      | ok s2 =>
        have h2 := extract_audio_ok_fs he
        rw [except_bind_ok, recognize_err hrec, except_bind_error]
        refine ⟨Err.recognitionError, _, rfl, ?_⟩
        intro p hp
        rcases h2 p hp with hp' | hp'
        · rcases h1 p hp' with hp'' | hp''
          · exact Or.inl hp''
          · exact Or.inr (Or.inl hp'')
        · exact Or.inr (Or.inr hp')

/-- C8, witness: recognition fails on an initially empty filesystem. -/
theorem C8_recognition_failure_witness :
    ∃ e s', main defaultConfig ⟨true, true, none, fun t _ _ => Except.ok t⟩ ⟨[], []⟩ =
        Except.error (e, s') ∧
      ∀ p ∈ s'.fs, p ∈ ([] : List String) ∨ p = VIDEO_NAME ∨ p = AUDIO_NAME :=
  C8_recognition_failure_no_captions defaultConfig _ ⟨[], []⟩ rfl

end VideoSubtitlePipeline
